import Mathlib

/-!
Shallow embedding of `pettingzoo/utils/agent_selector.py`: the three
turn-order schedulers `AgentSelector` (fixed round robin), `AgentSelector2`
(manager-preemptible hierarchical cycle) and `AgentSelector3` (dynamic
active-set cycle), together with proofs of the specification's claims
about them.

Modelling conventions:
- Python lists of identifiers become `List String`; list indices that the
  source guarantees in range (results of `list.index`, `enumerate`) are read
  with `List.getD` (default never reached on constructed states); a read the
  source can actually crash on (`% 0`, out-of-range subscript of the
  caller-supplied activity vector) is modelled with an `Option` result where
  `none` is the raised exception.
- `AgentSelector.reinit` stores the sentinel `0` in `selected_agent`
  (an `int`, never equal to any identifier string); `AgentSelector2/3`
  store `None`.  Both sentinels are modelled as `Option.none`, actual
  selections as `some`; Python's `None == str` and `0 == str` are `False`,
  matching `none == some a = false`.
- Python `list.index(x)` raises `ValueError` when `x` is absent: modelled
  by `pyIndex` returning `Option Nat`.
-/

/-- Python `list.index`: index of the first occurrence, `none` for the
`ValueError` raised when the element is absent. -/
def pyIndex (x : String) : List String → Option Nat
  | [] => none
  | a :: rest => if a = x then some 0 else (pyIndex x rest).map (· + 1)

theorem pyIndex_eq_none_iff (x : String) (l : List String) :
    pyIndex x l = none ↔ x ∉ l := by
  induction l with
  | nil => simp [pyIndex]
  | cons a rest ih =>
    by_cases h : a = x
    · simp [pyIndex, h]
    · simp [pyIndex, h, Option.map_eq_none', ih]
      exact fun _ he => h he.symm

/-- When `pyIndex` succeeds, the list holds the sought element there. -/
theorem pyIndex_get (x : String) (l : List String) (i : Nat)
    (h : pyIndex x l = some i) : l.getD i "" = x := by
  induction l generalizing i with
  | nil => simp [pyIndex] at h
  | cons a rest ih =>
    by_cases ha : a = x
    · simp [pyIndex, ha] at h
      subst h
      simpa using ha
    · simp [pyIndex, ha] at h
      obtain ⟨j, hj, rfl⟩ := h
      simpa using ih j hj

/-! ## AgentSelector: the fixed-order round robin -/

/-- State of `AgentSelector` (fields as in the source; the Python sentinel
`selected_agent = 0` is `none`). -/
structure AgentSelector where
  agent_order : List String
  _current_agent : Nat
  selected_agent : Option String
  deriving Repr, DecidableEq

namespace AgentSelector

/-- Source `AgentSelector.reinit`: store the order, reset position and the
selection sentinel.  Performs no validation. -/
def reinit (agent_order : List String) : AgentSelector :=
  { agent_order := agent_order, _current_agent := 0, selected_agent := none }

/-- Source `AgentSelector.next`: `_current_agent = (_current_agent + 1) % len`,
then select `agent_order[_current_agent - 1]` (Python negative indexing:
index `-1` is the last element, so the subscript is `(cur + len - 1) % len`).
`none` is the `ZeroDivisionError` raised by `% 0` on an empty order. -/
def next (s : AgentSelector) : Option (AgentSelector × String) :=
  let n := s.agent_order.length
  if n = 0 then none
  else
    let cur := (s._current_agent + 1) % n
    match s.agent_order.get? ((cur + n - 1) % n) with
    | some a =>
        some ({ s with _current_agent := cur, selected_agent := some a }, a)
    | none => none

/-- Source `AgentSelector.reset`: reinitialize to the stored order, then one
`next`. -/
def reset (s : AgentSelector) : Option (AgentSelector × String) :=
  (reinit s.agent_order).next

/-- Source `AgentSelector.is_last`: compare the selection with
`agent_order[-1]`. -/
def is_last (s : AgentSelector) : Bool :=
  s.selected_agent == s.agent_order.getLast?

/-- Source `AgentSelector.is_first`: compare the selection with
`agent_order[0]`. -/
def is_first (s : AgentSelector) : Bool :=
  s.selected_agent == s.agent_order.head?

/-- Source `AgentSelector.__eq__`: field-wise comparison. -/
def eq (s t : AgentSelector) : Bool :=
  s.agent_order == t.agent_order &&
    s._current_agent == t._current_agent &&
    s.selected_agent == t.selected_agent

/-- Iterated `next`: `steps s k` is the state/output after the `(k+1)`-th
call on `s` (so `steps s 0 = next s`). -/
def steps (s : AgentSelector) : Nat → Option (AgentSelector × String)
  | 0 => s.next
  | k + 1 =>
    match steps s k with
    | some (s1, _) => s1.next
    | none => none

end AgentSelector

/-- Python `str.startswith`, on the character lists (kernel-reducible form
of `String.startsWith`). -/
def startswith (s pre : String) : Bool :=
  s.data.take pre.data.length == pre.data

/-! ## AgentSelector2: the manager-preemptible hierarchical cycler -/

/-- State of `AgentSelector2`. -/
structure AgentSelector2 where
  agent_order : List String
  manager_index : Nat
  workstation_indices : List Nat
  coordination_index : Nat
  _current_index : Nat
  selected_agent : Option String
  deriving Repr, DecidableEq

namespace AgentSelector2

/-- Source `AgentSelector2.__init__` / `reinit`: locate the fixed manager
and coordination indices (Python `list.index`, `ValueError` = `none` when
absent) and collect the indices of identifiers starting with
"workstation". -/
def reinit (agent_order : List String) : Option AgentSelector2 :=
  match pyIndex "manager" agent_order, pyIndex "coordination" agent_order with
  | some mi, some ci =>
      some { agent_order := agent_order
             manager_index := mi
             workstation_indices :=
               agent_order.enum.filterMap
                 (fun p => if startswith p.2 "workstation" then some p.1 else none)
             coordination_index := ci
             _current_index := 0
             selected_agent := none }
  | _, _ => none

/-- Source `AgentSelector2.reset`: zero the position and return the manager
identifier.  Note: `selected_agent` is left untouched. -/
def reset (s : AgentSelector2) : AgentSelector2 × String :=
  ({ s with _current_index := 0 }, s.agent_order.getD s.manager_index "")

/-- Source `AgentSelector2.next`.  The `coordination_act` argument is
accepted (as in the source signature) but never read by the body. -/
def next (s : AgentSelector2) (manager_act : Bool) (coordination_act : Bool)
    (active_agents : List String) : AgentSelector2 × String :=
  if manager_act ∧ "manager" ∈ active_agents then
    let a := s.agent_order.getD s.manager_index ""
    ({ s with selected_agent := some a, _current_index := 0 }, a)
  else
    let total := s.workstation_indices.length + 1
    let cycle_index := s._current_index % total
    let a :=
      if cycle_index < s.workstation_indices.length then
        s.agent_order.getD (s.workstation_indices.getD cycle_index 0) ""
      else
        s.agent_order.getD s.coordination_index ""
    ({ s with selected_agent := some a, _current_index := s._current_index + 1 }, a)

/-- Source `AgentSelector2.is_last`: compare with the coordination entry. -/
def is_last (s : AgentSelector2) : Bool :=
  s.selected_agent == some (s.agent_order.getD s.coordination_index "")

/-- Source `AgentSelector2.is_first`: compare with the manager entry. -/
def is_first (s : AgentSelector2) : Bool :=
  s.selected_agent == some (s.agent_order.getD s.manager_index "")

/-- Source `AgentSelector2.__eq__`: field-wise comparison (role indices are
derived and not compared). -/
def eq (s t : AgentSelector2) : Bool :=
  s.agent_order == t.agent_order &&
    s._current_index == t._current_index &&
    s.selected_agent == t.selected_agent

end AgentSelector2

/-! ## AgentSelector3: the dynamic active-set cycler -/

/-- State of `AgentSelector3`. -/
structure AgentSelector3 where
  agent_order : List String
  manager_index : Nat
  workstation_indices : List Nat
  coordination_index : Nat
  _current_index : Nat
  selected_agent : Option String
  _previous_agents_in_cycle_indices : List Nat
  deriving Repr, DecidableEq

namespace AgentSelector3

/-- Source `AgentSelector3.__init__` / `reinit`: same role discovery as
`AgentSelector2`, plus the empty previous-cycle record. -/
def reinit (agent_order : List String) : Option AgentSelector3 :=
  match pyIndex "manager" agent_order, pyIndex "coordination" agent_order with
  | some mi, some ci =>
      some { agent_order := agent_order
             manager_index := mi
             workstation_indices :=
               agent_order.enum.filterMap
                 (fun p => if startswith p.2 "workstation" then some p.1 else none)
             coordination_index := ci
             _current_index := 0
             selected_agent := none
             _previous_agents_in_cycle_indices := [] }
  | _, _ => none

/-- Source `AgentSelector3.reset`: zero the position, select the manager,
clear the previous-cycle record, return the manager identifier. -/
def reset (s : AgentSelector3) : AgentSelector3 × String :=
  let a := s.agent_order.getD s.manager_index ""
  ({ s with _current_index := 0, selected_agent := some a,
            _previous_agents_in_cycle_indices := [] }, a)

/-- The active-workstation sub-list computed inside `AgentSelector3.next`:
workstation indices whose aligned `workstation_act` entry is `1`.  (The
source subscripts `workstation_act[i]`; `getD` is only evaluated under the
length guard of `next`, where it equals that subscript.) -/
def activeWorkstations (s : AgentSelector3) (workstation_act : List Nat) :
    List Nat :=
  s.workstation_indices.enum.filterMap
    (fun p => if workstation_act.getD p.1 0 == 1 then some p.2 else none)

/-- The eligible cycle computed inside `AgentSelector3.next`: active
workstations plus coordination, or the full fallback cycle (all
workstations, coordination, manager) when no workstation is active. -/
def cycleIndices (s : AgentSelector3) (workstation_act : List Nat) :
    List Nat :=
  let active := activeWorkstations s workstation_act
  if active = [] then
    s.workstation_indices ++ [s.coordination_index] ++ [s.manager_index]
  else
    active ++ [s.coordination_index]

/-- Source `AgentSelector3.next`.  The outer `none` is the `IndexError`
raised when `workstation_act` is shorter than the workstation count (the
comprehension subscripts `workstation_act[i]` for every workstation
position `i`); a longer vector is accepted, its extra entries unread.  The
inner `Option` is the explicit `None` return of the empty-cycle branch. -/
def next (s : AgentSelector3) (manager_act : Bool)
    (workstation_act : List Nat) : Option (AgentSelector3 × Option String) :=
  if manager_act then
    let a := s.agent_order.getD s.manager_index ""
    some ({ s with selected_agent := some a, _current_index := 0,
                   _previous_agents_in_cycle_indices := [] }, some a)
  else if s.workstation_indices.length ≤ workstation_act.length then
    let cyc := cycleIndices s workstation_act
    if cyc = [] then
      some ({ s with selected_agent := none }, none)
    else
      let s1 :=
        if cyc = s._previous_agents_in_cycle_indices then s
        else { s with _current_index := 0,
                      _previous_agents_in_cycle_indices := cyc }
      let a := s.agent_order.getD (cyc.getD (s1._current_index % cyc.length) 0) ""
      some ({ s1 with selected_agent := some a,
                      _current_index := s1._current_index + 1 }, some a)
  else
    none

/-- Source `AgentSelector3.is_last`: compare with the literal coordination
identifier. -/
def is_last (s : AgentSelector3) : Bool :=
  s.selected_agent == some "coordination"

/-- Source `AgentSelector3.is_first`: compare with the literal manager
identifier. -/
def is_first (s : AgentSelector3) : Bool :=
  s.selected_agent == some "manager"

/-- The field comparison written in the body of `AgentSelector3.__eq__`
(dead code in the source: the guard `isinstance(other, AgentSelector2)`
never holds for an `AgentSelector3`, so the body is unreachable). -/
def eqFields (s t : AgentSelector3) : Bool :=
  s.agent_order == t.agent_order &&
    s._current_index == t._current_index &&
    s.selected_agent == t.selected_agent

/-- Source `AgentSelector3.__eq__` as Python executes it: the method tests
`isinstance(other, AgentSelector2)`, but `AgentSelector3` does not inherit
from `AgentSelector2`, so the test is false for every `AgentSelector3`
argument and the method returns `NotImplemented` (`none`). -/
def dunderEq (s t : AgentSelector3) : Option Bool :=
  let other_isinstance_AgentSelector2 := false
  if other_isinstance_AgentSelector2 then some (eqFields s t) else none

/-- The Python `==` operator on two `AgentSelector3` instances: both
`__eq__` directions return `NotImplemented`, so Python falls back to
object identity, which is `false` for two distinct instances. -/
def pyEq (s t : AgentSelector3) (same_object : Bool) : Bool :=
  match dunderEq s t with
  | some r => r
  | none =>
    match dunderEq t s with
    | some r => r
    | none => same_object

end AgentSelector3

/-! ## Round-robin behaviour of AgentSelector.next -/

/-- The subscript `agent_order[_current_agent - 1]` computed after the
position update: Python's index `-1` wraps to the last element, so the
effective subscript is the pre-update position reduced modulo the length. -/
theorem mod_shift (i n : Nat) (h : n ≠ 0) :
    ((i + 1) % n + n - 1) % n = i % n := by
  have h1 : (i + 1) % n + n - 1 = (i + 1) % n + (n - 1) := by omega
  rw [h1, Nat.mod_add_mod]
  have h2 : i + 1 + (n - 1) = i + n := by omega
  rw [h2, Nat.add_mod_right]

namespace AgentSelector

/-- On a non-empty order, `next` returns the element at the pre-call
position (mod length) and advances the position by one (mod length). -/
theorem next_eq (s : AgentSelector) (h : s.agent_order.length ≠ 0) :
    ∃ a, s.agent_order.get? (s._current_agent % s.agent_order.length) = some a ∧
      s.next = some
        ({ s with
            _current_agent := (s._current_agent + 1) % s.agent_order.length,
            selected_agent := some a }, a) := by
  have hlt : s._current_agent % s.agent_order.length < s.agent_order.length :=
    Nat.mod_lt _ (Nat.pos_of_ne_zero h)
  rcases hget : s.agent_order.get? (s._current_agent % s.agent_order.length)
    with _ | a
  · exact absurd (List.get?_eq_none.mp hget) (Nat.not_le.mpr hlt)
  · refine ⟨a, rfl, ?_⟩
    simp only [next]
    rw [if_neg h, mod_shift _ _ h, hget]

/-- After `reinit order`, the `(k+1)`-th `next` call returns
`order[k mod length]` and stores position `(k+1) mod length`. -/
theorem steps_reinit (order : List String) (h : order.length ≠ 0) (k : Nat) :
    ∃ a, order.get? (k % order.length) = some a ∧
      steps (reinit order) k = some
        ({ agent_order := order, _current_agent := (k + 1) % order.length,
           selected_agent := some a }, a) := by
  induction k with
  | zero => exact next_eq (reinit order) h
  | succ k ih =>
    obtain ⟨a, _, hs⟩ := ih
    obtain ⟨b, hb, hn⟩ := next_eq
      { agent_order := order, _current_agent := (k + 1) % order.length,
        selected_agent := some a } h
    have e1 : (k + 1) % order.length % order.length = (k + 1) % order.length :=
      Nat.mod_mod_of_dvd _ dvd_rfl
    have e2 : ((k + 1) % order.length + 1) % order.length =
        (k + 1 + 1) % order.length := Nat.mod_add_mod _ _ _
    refine ⟨b, by rw [← e1]; exact hb, ?_⟩
    simp only [steps, hs]
    rw [hn, e2]

end AgentSelector

/-- C1: Fixed-Order Cycler round-robin completeness.  For every non-empty
duplicate-free order: `reset` (from any state storing that order) returns
the first identifier; the `(k+1)`-th `next` call after reinitialization
returns `order[k]` for `k < N`; the first `N` calls return exactly the
declared order (hence, by duplicate-freedom, each identifier exactly once);
and the `(N+1)`-th call returns the first identifier again. -/
theorem C1_round_robin_completeness (order : List String)
    (hne : order ≠ []) (hnd : order.Nodup) :
    (∀ c sel, (AgentSelector.reset ⟨order, c, sel⟩).map Prod.snd = order.head?) ∧
    (∀ k, k < order.length →
      (AgentSelector.steps (AgentSelector.reinit order) k).map Prod.snd =
        order.get? k) ∧
    ((List.range order.length).map
        (fun k => (AgentSelector.steps (AgentSelector.reinit order) k).map Prod.snd)
      = order.map some) ∧
    (∀ a ∈ order, ∃! k, k < order.length ∧
      (AgentSelector.steps (AgentSelector.reinit order) k).map Prod.snd =
        some a) ∧
    (AgentSelector.steps (AgentSelector.reinit order) order.length).map
        Prod.snd = order.get? 0 := by
  have hlen : order.length ≠ 0 := fun h0 => hne (List.length_eq_zero.mp h0)
  have hstep : ∀ k, k < order.length →
      (AgentSelector.steps (AgentSelector.reinit order) k).map Prod.snd =
        order.get? k := by
    intro k hk
    obtain ⟨a, ha, hs⟩ := AgentSelector.steps_reinit order hlen k
    rw [hs]
    rw [Nat.mod_eq_of_lt hk] at ha
    exact ha.symm
  have hlist : (List.range order.length).map
      (fun k => (AgentSelector.steps (AgentSelector.reinit order) k).map Prod.snd)
      = order.map some := by
    apply List.ext_get?
    intro k
    rw [List.get?_map, List.get?_map]
    by_cases hk : k < order.length
    · have hx : order.get? k = some (order.get ⟨k, hk⟩) := List.get?_eq_get hk
      rw [List.get?_range hk, hx, Option.map_some', Option.map_some',
        hstep k hk, hx]
    · have h1 : (List.range order.length).get? k = none := by
        rw [List.get?_eq_none]
        simpa using Nat.le_of_not_lt hk
      have h2 : order.get? k = none := by
        rw [List.get?_eq_none]
        exact Nat.le_of_not_lt hk
      rw [h1, h2]
      rfl
  refine ⟨?_, hstep, hlist, ?_, ?_⟩
  · intro c sel
    have h0 := hstep 0 (Nat.pos_of_ne_zero hlen)
    have : order.get? 0 = order.head? := by cases order <;> rfl
    exact h0.trans this
  · intro a ha
    obtain ⟨⟨i, hi⟩, rfl⟩ := List.mem_iff_get.mp ha
    refine ⟨i, ⟨hi, ?_⟩, ?_⟩
    · rw [hstep i hi]
      exact List.get?_eq_get hi
    · rintro k ⟨hk, hout⟩
      rw [hstep k hk, List.get?_eq_get hk] at hout
      exact congrArg Fin.val (hnd.get_inj_iff.mp (Option.some.inj hout))
  · obtain ⟨a, ha, hs⟩ := AgentSelector.steps_reinit order hlen order.length
    rw [hs, Nat.mod_self] at *
    exact ha.symm

/-- Concrete witness for C1 at the order `["a", "b", "c"]`: the second call
after reinitialization returns the second identifier. -/
theorem C1_round_robin_completeness_witness :
    (AgentSelector.steps (AgentSelector.reinit ["a", "b", "c"]) 1).map
      Prod.snd = some "b" := by
  have h := C1_round_robin_completeness ["a", "b", "c"] (by decide) (by decide)
  exact (h.2.1 1 (by decide)).trans (by decide)

/-! ## Behaviour of AgentSelector3.next on the non-manager path -/

namespace AgentSelector3

/-- The eligible cycle is never empty: both of its branches end with an
appended singleton. -/
theorem cycleIndices_ne_nil (s : AgentSelector3) (w : List Nat) :
    s.cycleIndices w ≠ [] := by
  unfold cycleIndices
  by_cases h : s.activeWorkstations w = [] <;> simp [h]

/-- Non-manager call whose eligible cycle equals the recorded previous one:
no reset, the position advances by one, the previous-cycle record is kept. -/
theorem next_false_of_unchanged (s : AgentSelector3) (w : List Nat)
    (hlen : s.workstation_indices.length ≤ w.length)
    (hsame : s.cycleIndices w = s._previous_agents_in_cycle_indices) :
    s.next false w = some
      ({ s with
          selected_agent := some (s.agent_order.getD
            ((s.cycleIndices w).getD
              (s._current_index % (s.cycleIndices w).length) 0) ""),
          _current_index := s._current_index + 1 },
       some (s.agent_order.getD
         ((s.cycleIndices w).getD
           (s._current_index % (s.cycleIndices w).length) 0) "")) := by
  simp only [next]
  rw [if_neg (by simp), if_pos hlen, if_neg (cycleIndices_ne_nil s w),
    if_pos hsame]

/-- Non-manager call whose eligible cycle differs from the recorded one:
the position is reset to 0 (then incremented to 1), the new cycle is
recorded, and its first element is selected. -/
theorem next_false_of_changed (s : AgentSelector3) (w : List Nat)
    (hlen : s.workstation_indices.length ≤ w.length)
    (hdiff : s.cycleIndices w ≠ s._previous_agents_in_cycle_indices) :
    s.next false w = some
      ({ s with
          selected_agent :=
            some (s.agent_order.getD ((s.cycleIndices w).getD 0 0) ""),
          _current_index := 1,
          _previous_agents_in_cycle_indices := s.cycleIndices w },
       some (s.agent_order.getD ((s.cycleIndices w).getD 0 0) "")) := by
  simp only [next]
  rw [if_neg (by simp), if_pos hlen, if_neg (cycleIndices_ne_nil s w),
    if_neg hdiff]
  simp [Nat.zero_mod]

/-- The preemption branch of the dynamic cycler's `next`: unconditional on
`manager_act`, ignores the activity vector, zeroes the position, clears the
previous-cycle record. -/
theorem next_true (s : AgentSelector3) (w : List Nat) :
    s.next true w = some
      ({ s with
          selected_agent := some (s.agent_order.getD s.manager_index ""),
          _current_index := 0,
          _previous_agents_in_cycle_indices := [] },
       some (s.agent_order.getD s.manager_index "")) := by
  simp only [next]
  rw [if_pos trivial]

/-- Non-manager call with an activity vector shorter than the workstation
count: the Python comprehension raises `IndexError`. -/
theorem next_false_short (s : AgentSelector3) (w : List Nat)
    (hshort : w.length < s.workstation_indices.length) :
    s.next false w = none := by
  simp only [next]
  rw [if_neg (by simp), if_neg (by omega)]

end AgentSelector3

/-! ## Sub-cycle behaviour of AgentSelector2.next -/

namespace AgentSelector2

/-- First element of the fixed workstations-plus-coordination sub-cycle,
exactly as `next` selects it when the stored position is 0. -/
def subCycleFirst (s : AgentSelector2) : String :=
  if 0 < s.workstation_indices.length then
    s.agent_order.getD (s.workstation_indices.getD 0 0) ""
  else
    s.agent_order.getD s.coordination_index ""

/-- The preemption branch of the hierarchical cycler's `next`: taken when
`manager_act` holds and the manager is among the active agents. -/
theorem next_manager (s : AgentSelector2) (c : Bool) (act : List String)
    (hmem : "manager" ∈ act) :
    s.next true c act =
      ({ s with
          selected_agent := some (s.agent_order.getD s.manager_index ""),
          _current_index := 0 },
       s.agent_order.getD s.manager_index "") := by
  simp only [next]
  rw [if_pos ⟨trivial, hmem⟩]

/-- The cycling branch of `next` from stored position 0 selects the first
element of the sub-cycle. -/
theorem next_cycle_zero (s : AgentSelector2) (c : Bool) (act : List String)
    (h0 : s._current_index = 0) :
    (s.next false c act).2 = s.subCycleFirst := by
  simp only [next, subCycleFirst]
  rw [if_neg (by simp), h0, Nat.zero_mod]

end AgentSelector2

/-- C3: manager preemption.  Hierarchical cycler: from every state, a `next`
call with `manager_act` true and "manager" among the active agents returns
the manager entry and zeroes the position, and the following non-manager
call selects the first element of the workstation/coordination sub-cycle.
Dynamic cycler: from every state, a `next` call with `manager_act` true
unconditionally returns the manager entry, zeroes the position, clears the
previous eligible set, and the following non-manager call (with a valid
activity vector) selects the first element of its freshly computed eligible
cycle, leaving the position at 1. -/
theorem C3_manager_preemption :
    (∀ (s : AgentSelector2) (c : Bool) (act : List String),
      "manager" ∈ act →
        (s.next true c act).2 = s.agent_order.getD s.manager_index "" ∧
        (s.next true c act).1._current_index = 0 ∧
        ∀ (c2 : Bool) (act2 : List String),
          ((s.next true c act).1.next false c2 act2).2 = s.subCycleFirst) ∧
    (∀ (s : AgentSelector3) (w : List Nat),
      (s.next true w).map Prod.snd =
        some (some (s.agent_order.getD s.manager_index "")) ∧
      (s.next true w).map (fun r => r.1._current_index) = some 0 ∧
      (s.next true w).map (fun r => r.1._previous_agents_in_cycle_indices) =
        some [] ∧
      ∀ w2 : List Nat, s.workstation_indices.length ≤ w2.length →
        ((s.next true w).bind (fun r => r.1.next false w2)).map
            (fun r => (r.2, r.1._current_index)) =
          some (some (s.agent_order.getD ((s.cycleIndices w2).getD 0 0) ""),
            1)) := by
  constructor
  · intro s c act hmem
    rw [AgentSelector2.next_manager s c act hmem]
    refine ⟨rfl, rfl, ?_⟩
    intro c2 act2
    rw [AgentSelector2.next_cycle_zero _ c2 act2 rfl]
    rfl
  · intro s w
    rw [AgentSelector3.next_true s w]
    refine ⟨rfl, rfl, rfl, ?_⟩
    intro w2 hlen2
    have hc := AgentSelector3.next_false_of_changed
      { s with
          selected_agent := some (s.agent_order.getD s.manager_index ""),
          _current_index := 0,
          _previous_agents_in_cycle_indices := [] } w2 hlen2
      (AgentSelector3.cycleIndices_ne_nil _ w2)
    rw [Option.some_bind, hc]
    rfl

/-- Concrete witness for C3: a hierarchical state at position 5 is preempted
back to the manager; a dynamic state at position 7 with a stale previous
cycle is preempted and the following non-manager call (activity vector
`[1]`) restarts from "workstation_0" at position 1. -/
theorem C3_manager_preemption_witness :
    (({ agent_order := ["manager", "workstation_0", "coordination"],
        manager_index := 0, workstation_indices := [1], coordination_index := 2,
        _current_index := 5, selected_agent := none } : AgentSelector2).next
        true false ["manager"]).2 = "manager" ∧
    ((({ agent_order := ["manager", "workstation_0", "coordination"],
         manager_index := 0, workstation_indices := [1], coordination_index := 2,
         _current_index := 7, selected_agent := some "coordination",
         _previous_agents_in_cycle_indices := [1, 2] } : AgentSelector3).next
        true [0]).bind (fun r => r.1.next false [1])).map
      (fun r => (r.2, r.1._current_index)) =
      some (some "workstation_0", 1) := by
  constructor
  · exact ((C3_manager_preemption.1 _ false ["manager"] (by decide)).1).trans
      (by decide)
  · exact ((C3_manager_preemption.2 _ [0]).2.2.2 [1] (by decide)).trans (by rfl)

/-- C4: set-change detection of the dynamic cycler.  Two consecutive
non-manager calls with the same activity vector: the second never resets —
the previous-cycle record is kept and the position strictly increases by
one.  A single non-manager call whose computed eligible cycle differs from
the recorded one resets the position to 0 (stored as 1 after the
post-selection increment), records the new cycle, and selects its first
element. -/
theorem C4_set_change_detection :
    (∀ (s s1 s2 : AgentSelector3) (w : List Nat) (a1 a2 : Option String),
      s.next false w = some (s1, a1) →
      s1.next false w = some (s2, a2) →
      s2._previous_agents_in_cycle_indices =
        s1._previous_agents_in_cycle_indices ∧
      s2._current_index = s1._current_index + 1) ∧
    (∀ (s : AgentSelector3) (w : List Nat),
      s.workstation_indices.length ≤ w.length →
      s.cycleIndices w ≠ s._previous_agents_in_cycle_indices →
      s.next false w = some
        ({ s with
            selected_agent :=
              some (s.agent_order.getD ((s.cycleIndices w).getD 0 0) ""),
            _current_index := 1,
            _previous_agents_in_cycle_indices := s.cycleIndices w },
         some (s.agent_order.getD ((s.cycleIndices w).getD 0 0) ""))) := by
  constructor
  · intro s s1 s2 w a1 a2 h1 h2
    by_cases hlen : s.workstation_indices.length ≤ w.length
    · by_cases hd : s.cycleIndices w = s._previous_agents_in_cycle_indices
      · rw [AgentSelector3.next_false_of_unchanged s w hlen hd] at h1
        obtain ⟨rfl, rfl⟩ := Prod.mk.inj (Option.some.inj h1).symm
        rw [AgentSelector3.next_false_of_unchanged] at h2
        · obtain ⟨rfl, rfl⟩ := Prod.mk.inj (Option.some.inj h2).symm
          exact ⟨rfl, rfl⟩
        · exact hlen
        · exact hd
      · rw [AgentSelector3.next_false_of_changed s w hlen hd] at h1
        obtain ⟨rfl, rfl⟩ := Prod.mk.inj (Option.some.inj h1).symm
        rw [AgentSelector3.next_false_of_unchanged] at h2
        · obtain ⟨rfl, rfl⟩ := Prod.mk.inj (Option.some.inj h2).symm
          exact ⟨rfl, rfl⟩
        · exact hlen
        · rfl
    · rw [AgentSelector3.next_false_short s w (by omega)] at h1
      exact absurd h1 (by simp)
  · exact fun s w hlen hdiff =>
      AgentSelector3.next_false_of_changed s w hlen hdiff

/-- Concrete witness for C4: on `["manager", "workstation_0",
"coordination"]` with vector `[1]`, the first call resets (fresh record,
eligible cycle `[1, 2]` differs from the empty record) and returns
"workstation_0"; the second identical call keeps the record and moves the
position from 1 to 2. -/
theorem C4_set_change_detection_witness :
    ((({ agent_order := ["manager", "workstation_0", "coordination"],
         manager_index := 0, workstation_indices := [1], coordination_index := 2,
         _current_index := 0, selected_agent := none,
         _previous_agents_in_cycle_indices := [] } : AgentSelector3).next
        false [1]) = some
        ({ agent_order := ["manager", "workstation_0", "coordination"],
           manager_index := 0, workstation_indices := [1],
           coordination_index := 2, _current_index := 1,
           selected_agent := some "workstation_0",
           _previous_agents_in_cycle_indices := [1, 2] },
         some "workstation_0")) ∧
    (({ agent_order := ["manager", "workstation_0", "coordination"],
        manager_index := 0, workstation_indices := [1], coordination_index := 2,
        _current_index := 2, selected_agent := some "coordination",
        _previous_agents_in_cycle_indices := [1, 2] } :
          AgentSelector3)._previous_agents_in_cycle_indices =
      ({ agent_order := ["manager", "workstation_0", "coordination"],
         manager_index := 0, workstation_indices := [1], coordination_index := 2,
         _current_index := 1, selected_agent := some "workstation_0",
         _previous_agents_in_cycle_indices := [1, 2] } :
          AgentSelector3)._previous_agents_in_cycle_indices ∧
     (2 : Nat) = 1 + 1) := by
  constructor
  · exact C4_set_change_detection.2
      { agent_order := ["manager", "workstation_0", "coordination"],
        manager_index := 0, workstation_indices := [1], coordination_index := 2,
        _current_index := 0, selected_agent := none,
        _previous_agents_in_cycle_indices := [] } [1] (by decide) (by decide)
  · exact C4_set_change_detection.1
      { agent_order := ["manager", "workstation_0", "coordination"],
        manager_index := 0, workstation_indices := [1], coordination_index := 2,
        _current_index := 0, selected_agent := none,
        _previous_agents_in_cycle_indices := [] }
      { agent_order := ["manager", "workstation_0", "coordination"],
        manager_index := 0, workstation_indices := [1], coordination_index := 2,
        _current_index := 1, selected_agent := some "workstation_0",
        _previous_agents_in_cycle_indices := [1, 2] }
      { agent_order := ["manager", "workstation_0", "coordination"],
        manager_index := 0, workstation_indices := [1], coordination_index := 2,
        _current_index := 2, selected_agent := some "coordination",
        _previous_agents_in_cycle_indices := [1, 2] }
      [1] (some "workstation_0") (some "coordination") (by rfl) (by rfl)

/-- C2: Dynamic Active-Set Cycler concrete scenario on the order
`["manager", "workstation_0", "workstation_1", "coordination"]`: `reset`
returns "manager"; `next false [1, 0]` returns "workstation_0"; the same
call again returns "coordination" with the position advanced to 2 (no
reset, the eligible set is unchanged); `next true _` returns "manager"
with the position reset to 0; the following `next false [0, 0]` returns
"workstation_0" through the fallback cycle `[1, 2, 3, 0]` with the
position reset to 0 (stored as 1 after the increment). -/
theorem C2_concrete_scenario :
    ((AgentSelector3.reinit
        ["manager", "workstation_0", "workstation_1", "coordination"]).bind
      (fun s0 =>
        let r0 := s0.reset
        (r0.1.next false [1, 0]).bind (fun r1 =>
          (r1.1.next false [1, 0]).bind (fun r2 =>
            (r2.1.next true [1, 0]).bind (fun r3 =>
              (r3.1.next false [0, 0]).map (fun r4 =>
                (r0.2, r1.2, r2.2, r2.1._current_index, r3.2,
                 r3.1._current_index, r4.2, r4.1._current_index,
                 r4.1._previous_agents_in_cycle_indices))))))) =
    some ("manager", some "workstation_0", some "coordination", 2,
          some "manager", 0, some "workstation_0", 1, [1, 2, 3, 0]) := by
  rfl

/-- C9 counterexample: an activity vector longer than the workstation count
(here length 3 against a single workstation) is silently accepted by the
dynamic cycler's `next`, which returns "workstation_0" normally instead of
failing. -/
theorem C9_overlong_vector_accepted :
    ((AgentSelector3.reinit ["manager", "workstation_0", "coordination"]).map
      (fun s0 => (s0.next false [1, 0, 1]).map Prod.snd)) =
    some (some (some "workstation_0")) := by decide

/-- C9 amended: the dynamic cycler's `next` with `manager_act = False` fails
(Python `IndexError`) exactly when the activity vector is shorter than the
workstation count; a vector of equal or greater length is accepted. -/
theorem C9_activity_vector_length_amended (s : AgentSelector3) (w : List Nat) :
    s.next false w = none ↔ w.length < s.workstation_indices.length := by
  by_cases hlen : s.workstation_indices.length ≤ w.length
  · by_cases hdiff :
      s.cycleIndices w = s._previous_agents_in_cycle_indices
    · rw [AgentSelector3.next_false_of_unchanged s w hlen hdiff]
      simp
      omega
    · rw [AgentSelector3.next_false_of_changed s w hlen hdiff]
      simp
      omega
  · have hnone : s.next false w = none := by
      simp only [AgentSelector3.next]
      rw [if_neg (by simp), if_neg hlen]
    rw [hnone]
    simp
    omega

/-- Concrete witness for the C9 amendment: with one workstation, an empty
activity vector makes `next` fail. -/
theorem C9_activity_vector_length_amended_witness :
    ({ agent_order := ["manager", "workstation_0", "coordination"],
       manager_index := 0, workstation_indices := [1], coordination_index := 2,
       _current_index := 0, selected_agent := none,
       _previous_agents_in_cycle_indices := [] } : AgentSelector3).next
      false [] = none :=
  (C9_activity_vector_length_amended _ []).mpr (by decide)

/-- C10: the `coordination_act` argument of the hierarchical cycler's `next`
is inert: two calls differing only in it return the same identifier and
produce identical states. -/
theorem C10_coordination_act_inert (s : AgentSelector2) (manager_act : Bool)
    (c1 c2 : Bool) (active_agents : List String) :
    s.next manager_act c1 active_agents = s.next manager_act c2 active_agents :=
  rfl

/-- C5: two dynamic cyclers built and driven identically still compare
unequal under Python `==`.  `AgentSelector3.__eq__` guards on
`isinstance(other, AgentSelector2)`, which no `AgentSelector3` satisfies,
so both `__eq__` directions return `NotImplemented` and `==` falls back to
object identity — `False` for two distinct instances — even though every
field the method body would compare is equal (here shown on a freshly
constructed state, i.e. after the empty call sequence). -/
theorem C5_dynamic_equality_identity_fallback :
    ((AgentSelector3.reinit ["manager", "coordination"]).map
      (fun s => (AgentSelector3.pyEq s s false, AgentSelector3.eqFields s s))) =
    some (false, true) := by decide

/-- C6 counterexample: `AgentSelector.reinit` performs no validation.  An
empty order is accepted (the state is built normally) and the crash
(`ZeroDivisionError` from `% 0`) only happens inside the next `advance`
call; a duplicated order is accepted and advances without any error. -/
theorem C6_unchecked_construction :
    AgentSelector.reinit ([] : List String) =
      { agent_order := [], _current_agent := 0, selected_agent := none } ∧
    (AgentSelector.reinit ([] : List String)).next = none ∧
    (AgentSelector.reinit ["dup", "dup"]).next =
      some ({ agent_order := ["dup", "dup"], _current_agent := 1,
              selected_agent := some "dup" }, "dup") := by decide

/-- C6 amended: only the missing role identifiers are rejected at
construction/reinitialization time (ValueError from `list.index` in the
hierarchical and dynamic variants).  The fixed-order cycler's `reinit`
always succeeds — in particular on an empty order, whose failure surfaces
only as the division-by-zero inside the following `next` — and duplicate
identifiers are never checked in any variant. -/
theorem C6_construction_error_policy :
    (∀ order : List String,
      AgentSelector2.reinit order = none ↔
        ("manager" ∉ order ∨ "coordination" ∉ order)) ∧
    (∀ order : List String,
      AgentSelector3.reinit order = none ↔
        ("manager" ∉ order ∨ "coordination" ∉ order)) ∧
    (∀ order : List String,
      AgentSelector.reinit order =
        { agent_order := order, _current_agent := 0, selected_agent := none }) ∧
    (∀ order : List String,
      (AgentSelector.reinit order).next = none ↔ order = []) := by
  refine ⟨?_, ?_, fun _ => rfl, ?_⟩
  · intro order
    rcases hm : pyIndex "manager" order with _ | mi
    · have h1 := (pyIndex_eq_none_iff "manager" order).mp hm
      simp [AgentSelector2.reinit, hm, h1]
    · rcases hc : pyIndex "coordination" order with _ | ci
      · have h2 := (pyIndex_eq_none_iff "coordination" order).mp hc
        simp [AgentSelector2.reinit, hm, hc, h2]
      · have h1 : "manager" ∈ order := by
          by_contra h
          rw [← pyIndex_eq_none_iff "manager" order] at h
          rw [h] at hm
          cases hm
        have h2 : "coordination" ∈ order := by
          by_contra h
          rw [← pyIndex_eq_none_iff "coordination" order] at h
          rw [h] at hc
          cases hc
        simp [AgentSelector2.reinit, hm, hc, h1, h2]
  · intro order
    rcases hm : pyIndex "manager" order with _ | mi
    · have h1 := (pyIndex_eq_none_iff "manager" order).mp hm
      simp [AgentSelector3.reinit, hm, h1]
    · rcases hc : pyIndex "coordination" order with _ | ci
      · have h2 := (pyIndex_eq_none_iff "coordination" order).mp hc
        simp [AgentSelector3.reinit, hm, hc, h2]
      · have h1 : "manager" ∈ order := by
          by_contra h
          rw [← pyIndex_eq_none_iff "manager" order] at h
          rw [h] at hm
          cases hm
        have h2 : "coordination" ∈ order := by
          by_contra h
          rw [← pyIndex_eq_none_iff "coordination" order] at h
          rw [h] at hc
          cases hc
        simp [AgentSelector3.reinit, hm, hc, h1, h2]
  · intro order
    constructor
    · intro h
      by_contra hne
      have hlen : order.length ≠ 0 := fun h0 => hne (List.length_eq_zero.mp h0)
      obtain ⟨a, _, hn⟩ := AgentSelector.next_eq (AgentSelector.reinit order) hlen
      rw [hn] at h
      cases h
    · rintro rfl
      rfl

/-- Concrete witness for the C6 amendment: an order without a manager entry
is rejected by the hierarchical cycler's constructor. -/
theorem C6_construction_error_policy_witness :
    AgentSelector2.reinit ["workstation_0", "coordination"] = none :=
  (C6_construction_error_policy.1 ["workstation_0", "coordination"]).mpr
    (Or.inl (by decide))

/-- C7 counterexample: three non-manager advances on a freshly constructed
hierarchical cycler over `["manager", "workstation_0", "coordination"]`
leave the stored position at 3, outside `[0, 3)` (the order length) and
outside `[0, 2)` (the sub-cycle length): the stored position is not kept
within `[0, len)`. -/
theorem C7_position_escapes_bounds :
    ((AgentSelector2.reinit ["manager", "workstation_0", "coordination"]).map
      (fun s0 =>
        let s3 := (((s0.next false false []).1.next false false []).1.next
          false false []).1
        (s3._current_index, decide (s3._current_index < s3.agent_order.length),
         decide (s3._current_index <
           s3.workstation_indices.length + 1)))) = some (3, false, false) := by
  rfl

/-- C7 amended: the `[0, len)` bound holds for the fixed-order cycler
(after reinitialization on a non-empty order and after every `next`).  For
the hierarchical and dynamic cyclers the stored position is zeroed by
`reset`, by manager preemption and (dynamic) on an eligible-set change,
and otherwise grows by exactly one per call without an upper bound; only
the derived cycle index, position mod cycle length, stays within the
cycle. -/
theorem C7_position_bound_amended :
    (∀ (s s1 : AgentSelector) (a : String),
      s.next = some (s1, a) → s1._current_agent < s1.agent_order.length) ∧
    (∀ order : List String, order ≠ [] →
      (AgentSelector.reinit order)._current_agent < order.length) ∧
    (∀ (s : AgentSelector2) (c : Bool) (act : List String),
      s.reset.1._current_index = 0 ∧
      ("manager" ∈ act → (s.next true c act).1._current_index = 0) ∧
      (s.next false c act).1._current_index = s._current_index + 1 ∧
      s._current_index % (s.workstation_indices.length + 1) <
        s.workstation_indices.length + 1) ∧
    (∀ (s : AgentSelector3) (w : List Nat),
      s.reset.1._current_index = 0 ∧
      (s.next true w).map (fun r => r.1._current_index) = some 0 ∧
      (s.workstation_indices.length ≤ w.length →
        (s.next false w).map (fun r => r.1._current_index) =
          some ((if s.cycleIndices w = s._previous_agents_in_cycle_indices
            then s._current_index else 0) + 1))) := by
  refine ⟨?_, ?_, ?_, ?_⟩
  · intro s s1 a h
    by_cases hlen : s.agent_order.length = 0
    · have hnone : s.next = none := by
        simp only [AgentSelector.next]
        rw [if_pos hlen]
      rw [hnone] at h
      cases h
    · obtain ⟨b, _, hn⟩ := AgentSelector.next_eq s hlen
      rw [hn] at h
      obtain ⟨rfl, rfl⟩ := Prod.mk.inj (Option.some.inj h).symm
      exact Nat.mod_lt _ (Nat.pos_of_ne_zero hlen)
  · intro order hne
    exact List.length_pos.mpr hne
  · intro s c act
    refine ⟨rfl, fun hmem => ?_, ?_, Nat.mod_lt _ (Nat.succ_pos _)⟩
    · rw [AgentSelector2.next_manager s c act hmem]
    · simp only [AgentSelector2.next]
      rw [if_neg (by simp)]
  · intro s w
    refine ⟨rfl, ?_, fun hlen => ?_⟩
    · rw [AgentSelector3.next_true s w]
      rfl
    · by_cases hd : s.cycleIndices w = s._previous_agents_in_cycle_indices
      · rw [AgentSelector3.next_false_of_unchanged s w hlen hd, if_pos hd]
        rfl
      · rw [AgentSelector3.next_false_of_changed s w hlen hd, if_neg hd]
        rfl

/-- Concrete witness for the C7 amendment, touching each variant: one
`next` on a two-element fixed order keeps the position in bounds; a
non-empty reinitialization starts in bounds; a hierarchical preemption
zeroes the position while a plain advance increments it; a dynamic
non-manager call on a fresh state stores position 1. -/
theorem C7_position_bound_amended_witness :
    ({ agent_order := ["x", "y"], _current_agent := 1,
       selected_agent := some "x" } : AgentSelector)._current_agent <
      ({ agent_order := ["x", "y"], _current_agent := 1,
         selected_agent := some "x" } : AgentSelector).agent_order.length ∧
    (AgentSelector.reinit ["x"])._current_agent < ["x"].length ∧
    (({ agent_order := ["manager", "workstation_0", "coordination"],
        manager_index := 0, workstation_indices := [1], coordination_index := 2,
        _current_index := 4, selected_agent := none } : AgentSelector2).next
        true false ["manager"]).1._current_index = 0 ∧
    (({ agent_order := ["manager", "workstation_0", "coordination"],
        manager_index := 0, workstation_indices := [1], coordination_index := 2,
        _current_index := 0, selected_agent := none,
        _previous_agents_in_cycle_indices := [] } : AgentSelector3).next
        false [1]).map (fun r => r.1._current_index) = some 1 := by
  refine ⟨?_, ?_, ?_, ?_⟩
  · exact C7_position_bound_amended.1 (AgentSelector.reinit ["x", "y"]) _ "x"
      (by rfl)
  · exact C7_position_bound_amended.2.1 ["x"] (by decide)
  · exact (C7_position_bound_amended.2.2.1
      { agent_order := ["manager", "workstation_0", "coordination"],
        manager_index := 0, workstation_indices := [1], coordination_index := 2,
        _current_index := 4, selected_agent := none } false
      ["manager"]).2.1 (by decide)
  · exact ((C7_position_bound_amended.2.2.2
      { agent_order := ["manager", "workstation_0", "coordination"],
        manager_index := 0, workstation_indices := [1], coordination_index := 2,
        _current_index := 0, selected_agent := none,
        _previous_agents_in_cycle_indices := [] } [1]).2.2
      (by decide)).trans (by rfl)

/-! ## Selection bookkeeping helpers for the first/last queries -/

namespace AgentSelector2

/-- Every branch of the hierarchical `next` records the returned identifier
in `selected_agent`. -/
theorem next_selected_eq (s : AgentSelector2) (m c : Bool)
    (act : List String) :
    (s.next m c act).1.selected_agent = some ((s.next m c act).2) := by
  simp only [next]
  by_cases hcond : m = true ∧ "manager" ∈ act
  · rw [if_pos hcond]
  · rw [if_neg hcond]

/-- The hierarchical `next` never touches the order or the role indices. -/
theorem next_fields (s : AgentSelector2) (m c : Bool) (act : List String) :
    (s.next m c act).1.agent_order = s.agent_order ∧
      (s.next m c act).1.manager_index = s.manager_index ∧
      (s.next m c act).1.coordination_index = s.coordination_index := by
  simp only [next]
  by_cases hcond : m = true ∧ "manager" ∈ act
  · rw [if_pos hcond]
    exact ⟨rfl, rfl, rfl⟩
  · rw [if_neg hcond]
    exact ⟨rfl, rfl, rfl⟩

end AgentSelector2

/-- Every successful branch of the dynamic `next` records the returned
value in `selected_agent`. -/
theorem AgentSelector3.next_selected_out (s : AgentSelector3) (m : Bool)
    (w : List Nat) (s1 : AgentSelector3) (r : Option String)
    (h : s.next m w = some (s1, r)) : s1.selected_agent = r := by
  cases m
  · by_cases hlen : s.workstation_indices.length ≤ w.length
    · by_cases hd : s.cycleIndices w = s._previous_agents_in_cycle_indices
      · rw [AgentSelector3.next_false_of_unchanged s w hlen hd] at h
        obtain ⟨rfl, rfl⟩ := Prod.mk.inj (Option.some.inj h).symm
        rfl
      · rw [AgentSelector3.next_false_of_changed s w hlen hd] at h
        obtain ⟨rfl, rfl⟩ := Prod.mk.inj (Option.some.inj h).symm
        rfl
    · rw [AgentSelector3.next_false_short s w (by omega)] at h
      cases h
  · rw [AgentSelector3.next_true s w] at h
    obtain ⟨rfl, rfl⟩ := Prod.mk.inj (Option.some.inj h).symm
    rfl

/-- C8 counterexample: `AgentSelector2.reset` returns the manager but does
not update `selected_agent`, so on a freshly constructed hierarchical
cycler `is_first()` is still false right after `reset()`.  Moreover, in the
dynamic cycler's fallback cycle the last element is the manager, so after
the advance that returns the last element of the (fallback) cycle,
`is_last()` is false. -/
theorem C8_first_last_counterexample :
    ((AgentSelector2.reinit ["manager", "workstation_0", "coordination"]).map
      (fun s0 => (s0.reset.2, s0.reset.1.is_first))) =
      some ("manager", false) ∧
    ((AgentSelector3.reinit ["manager", "workstation_0", "coordination"]).bind
      (fun s0 => ((s0.reset.1.next false [0]).bind (fun r1 =>
        (r1.1.next false [0]).bind (fun r2 =>
          (r2.1.next false [0]).map (fun r3 => (r3.2, r3.1.is_last))))))) =
      some (some "manager", false) := by
  constructor <;> rfl

/-- C8 amended.  After `reset()`, `is_first()` is true for the fixed-order
cycler (any non-empty order) and for the dynamic cycler (any constructed
state); the hierarchical cycler's `reset` leaves `selected_agent`
untouched, so on a freshly constructed instance `is_first()` is false
after `reset()`.  `is_last()` is true immediately after any advance that
returns the last element of the declared order (fixed-order), the
coordination entry (hierarchical), or the literal "coordination"
identifier (dynamic) — in the dynamic fallback cycle the last element is
the manager, after which `is_last()` is false (see the counterexample).
The two queries are never simultaneously true: for the fixed-order cycler
under duplicate-freedom with more than one participant, and for the
hierarchical (whose constructed role entries "manager" and "coordination"
differ) and dynamic (literal comparison) cyclers unconditionally. -/
theorem C8_first_last_amended :
    (∀ (order : List String) (c : Nat) (sel : Option String), order ≠ [] →
      ∃ s1 a, AgentSelector.reset ⟨order, c, sel⟩ = some (s1, a) ∧
        s1.is_first = true) ∧
    (∀ (order : List String) (s3 : AgentSelector3),
      AgentSelector3.reinit order = some s3 → s3.reset.1.is_first = true) ∧
    (∀ (order : List String) (s2 : AgentSelector2),
      AgentSelector2.reinit order = some s2 → s2.reset.1.is_first = false) ∧
    (∀ (s s1 : AgentSelector) (a : String),
      s.next = some (s1, a) → s1.agent_order.getLast? = some a →
        s1.is_last = true) ∧
    (∀ (s : AgentSelector2) (m c : Bool) (act : List String),
      (s.next m c act).2 = s.agent_order.getD s.coordination_index "" →
        (s.next m c act).1.is_last = true) ∧
    (∀ (s : AgentSelector3) (m : Bool) (w : List Nat) (s1 : AgentSelector3),
      s.next m w = some (s1, some "coordination") → s1.is_last = true) ∧
    (∀ s : AgentSelector, 1 < s.agent_order.length → s.agent_order.Nodup →
      ¬(s.is_first = true ∧ s.is_last = true)) ∧
    (∀ (order : List String) (s2 : AgentSelector2),
      AgentSelector2.reinit order = some s2 →
        s2.agent_order.getD s2.manager_index "" = "manager" ∧
        s2.agent_order.getD s2.coordination_index "" = "coordination") ∧
    (∀ s : AgentSelector2,
      s.agent_order.getD s.manager_index "" = "manager" →
      s.agent_order.getD s.coordination_index "" = "coordination" →
      ¬(s.is_first = true ∧ s.is_last = true)) ∧
    (∀ s : AgentSelector3, ¬(s.is_first = true ∧ s.is_last = true)) := by
  refine ⟨?_, ?_, ?_, ?_, ?_, ?_, ?_, ?_, ?_, ?_⟩
  · intro order c sel hne
    have hlen : order.length ≠ 0 := fun h0 => hne (List.length_eq_zero.mp h0)
    obtain ⟨a, ha, hn⟩ := AgentSelector.next_eq (AgentSelector.reinit order) hlen
    have ha2 : order.get? (0 % order.length) = some a := ha
    rw [Nat.zero_mod] at ha2
    have hh : order.head? = some a := by
      cases order
      · cases ha2
      · simpa using ha2
    refine ⟨_, a, hn, ?_⟩
    show ((some a : Option String) == order.head?) = true
    rw [hh]
    simp
  · intro order s3 h
    rcases hm : pyIndex "manager" order with _ | mi
    · simp [AgentSelector3.reinit, hm] at h
    · rcases hc : pyIndex "coordination" order with _ | ci
      · simp [AgentSelector3.reinit, hm, hc] at h
      · simp only [AgentSelector3.reinit, hm, hc] at h
        obtain rfl := Option.some.inj h
        have hget := pyIndex_get "manager" order mi hm
        show ((some (order.getD mi "") : Option String) == some "manager") = true
        rw [hget]
        simp
  · intro order s2 h
    rcases hm : pyIndex "manager" order with _ | mi
    · simp [AgentSelector2.reinit, hm] at h
    · rcases hc : pyIndex "coordination" order with _ | ci
      · simp [AgentSelector2.reinit, hm, hc] at h
      · simp only [AgentSelector2.reinit, hm, hc] at h
        obtain rfl := Option.some.inj h
        rfl
  · intro s s1 a hn hl
    by_cases hlen : s.agent_order.length = 0
    · have hnone : s.next = none := by
        simp only [AgentSelector.next]
        rw [if_pos hlen]
      rw [hnone] at hn
      cases hn
    · obtain ⟨b, _, he⟩ := AgentSelector.next_eq s hlen
      rw [he] at hn
      obtain ⟨rfl, rfl⟩ := Prod.mk.inj (Option.some.inj hn).symm
      simp only [AgentSelector.is_last]
      rw [hl]
      simp
  · intro s m c act h
    have hsel := AgentSelector2.next_selected_eq s m c act
    have hfld := AgentSelector2.next_fields s m c act
    simp only [AgentSelector2.is_last, hsel, hfld.1, hfld.2.2, h]
    simp
  · intro s m w s1 h
    have hsel := AgentSelector3.next_selected_out s m w s1 (some "coordination") h
    simp [AgentSelector3.is_last, hsel]
  · intro s hlen hnd hx
    obtain ⟨hf, hl⟩ := hx
    have hne : s.agent_order ≠ [] := by
      intro h0
      rw [h0] at hlen
      simp at hlen
    simp only [AgentSelector.is_first, beq_iff_eq] at hf
    simp only [AgentSelector.is_last, beq_iff_eq] at hl
    rw [hf] at hl
    rw [List.getLast?_eq_getLast_of_ne_nil hne, List.head?_eq_head hne] at hl
    have he := Option.some.inj hl
    rw [List.head_eq_getElem_zero hne, List.getLast_eq_getElem] at he
    have h01 := hnd.getElem_inj_iff.mp he
    omega
  · intro order s2 h
    rcases hm : pyIndex "manager" order with _ | mi
    · simp [AgentSelector2.reinit, hm] at h
    · rcases hc : pyIndex "coordination" order with _ | ci
      · simp [AgentSelector2.reinit, hm, hc] at h
      · simp only [AgentSelector2.reinit, hm, hc] at h
        obtain rfl := Option.some.inj h
        exact ⟨pyIndex_get "manager" order mi hm,
          pyIndex_get "coordination" order ci hc⟩
  · intro s hmrole hcrole hx
    obtain ⟨hf, hl⟩ := hx
    simp only [AgentSelector2.is_first, beq_iff_eq] at hf
    simp only [AgentSelector2.is_last, beq_iff_eq] at hl
    rw [hmrole] at hf
    rw [hcrole] at hl
    rw [hf] at hl
    exact absurd (Option.some.inj hl) (by decide)
  · intro s hx
    obtain ⟨hf, hl⟩ := hx
    simp only [AgentSelector3.is_first, beq_iff_eq] at hf
    simp only [AgentSelector3.is_last, beq_iff_eq] at hl
    rw [hf] at hl
    exact absurd (Option.some.inj hl) (by decide)

/-- Concrete witness for the C8 amendment, exercising each hypothesis:
reset on the fixed order `["a", "b"]` selects "a" and `is_first` holds;
reset on a constructed dynamic cycler selects the manager; reset on a
constructed hierarchical cycler leaves `is_first` false; the hierarchical
exclusivity holds for a constructed state. -/
theorem C8_first_last_amended_witness :
    (∃ s1 a, AgentSelector.reset ⟨["a", "b"], 0, none⟩ = some (s1, a) ∧
      s1.is_first = true) ∧
    (∀ s3 : AgentSelector3,
      AgentSelector3.reinit ["manager", "coordination"] = some s3 →
        s3.reset.1.is_first = true) ∧
    ¬(({ agent_order := ["manager", "coordination"], manager_index := 0,
         workstation_indices := [], coordination_index := 1,
         _current_index := 0,
         selected_agent := some "manager" } : AgentSelector2).is_first = true ∧
      ({ agent_order := ["manager", "coordination"], manager_index := 0,
         workstation_indices := [], coordination_index := 1,
         _current_index := 0,
         selected_agent := some "manager" } : AgentSelector2).is_last = true) := by
  refine ⟨?_, ?_, ?_⟩
  · exact C8_first_last_amended.1 ["a", "b"] 0 none (by decide)
  · exact fun s3 h => C8_first_last_amended.2.1 ["manager", "coordination"] s3 h
  · exact C8_first_last_amended.2.2.2.2.2.2.2.2.1
      { agent_order := ["manager", "coordination"], manager_index := 0,
        workstation_indices := [], coordination_index := 1,
        _current_index := 0, selected_agent := some "manager" }
      (by decide) (by decide)

